import Mathlib

/-!
# Verification of the i-SAS Interface coordination and execution core

A shallow embedding of the inter-service coordination and batch-execution
engine of the i-SAS Interface repository, together with theorems settling
the spec's claims about it.

Conventions:
* Python `datetime` values are embedded as `Int` (an absolute time in
  seconds); `timedelta(seconds=n)` becomes addition of `n`.
* Python `list(set(a) - set(b))` produces a duplicate-free list in an
  unspecified order; it is embedded as `a.dedup.filter (· ∉ b)` and all
  claims about such values are stated at the level of `Finset`s
  (`List.toFinset`), never about the list order.
* Blocking calls (a `queue.get` with no timeout, an unending retry loop)
  are embedded by running the code against the finite sequence of events
  it would observe; "blocks forever / keeps retrying" is the case where
  that sequence is exhausted without the code returning.
-/

namespace ISAS

/-! ## Message channel: `SocketClient.send` (src/isas/service/socket.py, 88-107)

`send` opens a socket and loops: try `connect` + `sendall`; on success,
`break`; on `socket.error`, log, `time.sleep(1)`, and try again.  The
`except socket.error` clause swallows every connection error, so `send`
never raises; it returns only after a successful connect-and-write.

The embedding runs the loop against the finite list of outcomes of the
successive connection attempts (`true` = connect-and-write succeeded,
`false` = `socket.error` raised and caught).  The result records how many
attempts were made and how many one-second sleeps were performed; if the
outcome list is exhausted without a success, the loop is still retrying. -/

/-- Result of running `SocketClient.send` against a finite list of
connection-attempt outcomes: either the payload was sent after `attempts`
attempts and `sleeps` one-second delays, or every observed attempt failed
and the loop is still retrying (it has not returned and has not raised). -/
inductive SendResult where
  | sent (attempts : Nat) (sleeps : Nat)
  | retrying (attempts : Nat) (sleeps : Nat)
deriving DecidableEq, Repr

/-- `SocketClient.send` (socket.py 98-106): the `while True` / `try connect;
sendall; break / except socket.error: sleep(1)` loop, run against the given
attempt outcomes. -/
def send : List Bool → SendResult
  | [] => .retrying 0 0
  | true :: _ => .sent 1 0
  | false :: rest =>
    match send rest with
    | .sent a s => .sent (a + 1) (s + 1)
    | .retrying a s => .retrying (a + 1) (s + 1)

/-! ## Dependency barrier: `Service._wait_dependencies` (src/isas/service/service.py, 131-142)

If the configured dependency list is empty the method returns at once,
without touching the inbound queue.  Otherwise it repeatedly pulls a
message from `recv_queue`, appends it to `finished_init`, and returns as
soon as `set(finished_init) >= set(DEPENDENCIES)`.

The embedding runs the loop against the finite list of messages the queue
would deliver, and returns `some n` when the method returns after pulling
`n` messages, `none` when the message list is exhausted with the method
still blocked on `recv_queue.get()`. -/

/-- The `while True` body of `Service._wait_dependencies` (service.py
136-142), with `received` playing the role of the accumulated
`finished_init` list. -/
def waitDependenciesAux (deps : List String) (received : List String) :
    List String → Option Nat
  | [] => none
  | m :: msgs =>
    let received' := received ++ [m]
    if deps.all (fun d => received'.contains d) then some 1
    else (waitDependenciesAux deps received' msgs).map (· + 1)

/-- `Service._wait_dependencies` (service.py 131-142): returns `some n` if
the method returns after pulling `n` messages of `msgs` from the inbound
queue, `none` if it is still blocked after all of `msgs` arrived. -/
def waitDependencies (deps : List String) (msgs : List String) : Option Nat :=
  if deps.length = 0 then some 0
  else waitDependenciesAux deps [] msgs

/-! ## Data model (src/isas/utils/dynamic_data_utils.py)

Tags are pandas DataFrames attached to each named time series.  A
DataFrame is embedded column-oriented: a list of (column name, column
values) pairs, one value per row.  Only string-valued columns matter to
the claims (the `batch_id` column), so values are `String`. -/

/-- A pandas DataFrame, embedded as named columns of string values. -/
abbrev DataFrame := List (String × List String)

/-- `df.columns`. -/
def DataFrame.columns (df : DataFrame) : List String := df.map Prod.fst

/-- `df[c]`: the values of column `c` (the empty column if `c` is not in
`df.columns`; callers below only use it after checking membership, as the
source does). -/
def DataFrame.getColumn (df : DataFrame) (c : String) : List String :=
  match df.find? (fun p => p.1 = c) with
  | some p => p.2
  | none => []

/-- `pd.Series.drop_duplicates().tolist()`.  pandas keeps the first
occurrence of each value; the embedding uses `List.dedup` (which keeps the
last).  The two agree up to order and the only consumer
(`get_dependencies`) immediately feeds the result through Python's
unordered `set`, so every claim about it is stated via `toFinset`. -/
def dropDuplicates (l : List String) : List String := l.dedup

/-- The per-batch tag produced by `generate_tag` (dynamic_data_utils.py
12-28).  `generate_tag` reads the wall clock (`datetime.now()`), so the
embedding takes the tag as an input instead of generating it. -/
structure Tag where
  batch_id : String
  service_name : String
  batch_datetime : Int
deriving DecidableEq, Repr

/-- One named time series of the working data: its field values are
irrelevant to the claims and are kept abstract as a DataFrame, together
with the tags DataFrame attached to its rows. -/
structure TimeSeriesData where
  fields : DataFrame
  tags : DataFrame
deriving DecidableEq, Repr

/-- `TimeSeriesBatchMetadata` (isas_base, used via
`generate_time_series_batch_metadata`): the per-batch lineage record.
`dependencies` is the list of keys of the Python dict of dependent batch
ids. -/
structure TimeSeriesBatchMetadata where
  service_name : String
  batch_datetime : Int
  dependencies : List String
deriving DecidableEq, Repr

/-- `DynamicData` (isas_base): the working data set, a dict of named time
series plus a dict of per-batch metadata, embedded as association lists
keyed by name in insertion order. -/
structure DynamicData where
  time_series_data : List (String × TimeSeriesData) := []
  time_series_batch_metadata : List (String × TimeSeriesBatchMetadata) := []
deriving DecidableEq, Repr

/-- The names present in the working data
(`dynamic_data.time_series_data.keys()`). -/
def DynamicData.keys (dd : DynamicData) : List String :=
  dd.time_series_data.map Prod.fst

/-- Python `dict.update` on an association list: entries of `new` replace
same-keyed entries of `base` in place, fresh keys are appended. -/
def alistUpdate {α : Type} (base new : List (String × α)) : List (String × α) :=
  new.foldl
    (fun acc p =>
      if acc.any (fun q => q.1 = p.1) then
        acc.map (fun q => if q.1 = p.1 then p else q)
      else acc ++ [p])
    base

/-- Modelled from the spec: `DynamicData.update` is provided by the
external `isas_base` collaborator (out of scope per §1); the spec §4.3
describes it as a dict-style merge of the named collections, entries of
the argument replacing same-named entries. -/
def DynamicData.update (dd other : DynamicData) : DynamicData where
  time_series_data := alistUpdate dd.time_series_data other.time_series_data
  time_series_batch_metadata :=
    alistUpdate dd.time_series_batch_metadata other.time_series_batch_metadata

/-- `get_dependencies` (dynamic_data_utils.py 59-79): collect, over every
named time series whose tags DataFrame has a `batch_id` column, the
deduplicated values of that column; then `list(set(...) - {tag['batch_id']})`. -/
def get_dependencies (dynamic_data : DynamicData) (tag : Tag) : List String :=
  let dependent_batch_id :=
    dynamic_data.time_series_data.foldl
      (fun acc p =>
        if "batch_id" ∈ p.2.tags.columns then
          acc ++ dropDuplicates (p.2.tags.getColumn "batch_id")
        else acc)
      []
  (dependent_batch_id.dedup).filter (fun b => b ≠ tag.batch_id)

/-- The set the spec describes: "every batch_id found in the tags of
consumed input rows" — all values of the `batch_id` tag column across the
working data's time series (stated from the spec's words, for comparison
with `get_dependencies`, which is translated from the source). -/
def DynamicData.allBatchIds (dd : DynamicData) : List String :=
  dd.time_series_data.foldl
    (fun acc p => acc ++ p.2.tags.getColumn "batch_id") []

/-- `generate_time_series_batch_metadata` (dynamic_data_utils.py 82-104). -/
def generate_time_series_batch_metadata (tag : Tag)
    (dependent_batch_id : List String) : DynamicData where
  time_series_data := []
  time_series_batch_metadata :=
    [(tag.batch_id,
      { service_name := tag.service_name
        batch_datetime := tag.batch_datetime
        dependencies := dependent_batch_id })]

/-! ## Streaming clock: `Interface._simulate_streaming` (src/isas/interface.py, 186-201)

The method sleeps `SLEEP_TIME` (irrelevant to the emitted values, kept as
a config field), then:

    loop = self.last_datetime is not None and cfg['LOOP'] and
        self.last_datetime >= datetime.fromisoformat(cfg['LAST_DATETIME'])
    if self.last_datetime is None or loop:
        self.last_datetime = datetime.fromisoformat(cfg['FIRST_DATETIME'])
    fisrt_datetime = self.last_datetime
    last_datetime = fisrt_datetime + timedelta(seconds=cfg['INTERVAL'])
    self.last_datetime = last_datetime
    return fisrt_datetime, last_datetime

The mutable cursor `self.last_datetime` (initially `None`) is passed
explicitly: the embedding maps the pre-call cursor to the emitted window
and the post-call cursor. -/

/-- The `SIMULATE_STREAM_PARAMS` configuration (interface.py 33-39). -/
structure SimulateStreamParams where
  sleep_time : Nat
  loop : Bool
  first_datetime : Int
  last_datetime : Int
  interval : Int
deriving DecidableEq, Repr

/-- `Interface._simulate_streaming` (interface.py 186-201), as a function
from the pre-call cursor (`self.last_datetime`, `none` = unset) to the
returned `(first_datetime, last_datetime)` window and the post-call
cursor. -/
def simulateStreaming (cfg : SimulateStreamParams) (cursor : Option Int) :
    (Int × Int) × Option Int :=
  let loopFlag : Bool :=
    match cursor with
    | none => false
    | some t => cfg.loop && decide (cfg.last_datetime ≤ t)
  let c : Int :=
    match cursor with
    | none => cfg.first_datetime
    | some t => if loopFlag then cfg.first_datetime else t
  ((c, c + cfg.interval), some (c + cfg.interval))

/-! ## Construction-time configuration check: `Base._check_cfg`
(src/isas/base/base.py, 97-108)

The only validation performed at construction time: the configured
`DATA_PROCESSING_METHOD` must be one of the three supported modes.  The
per-call time bounds are arguments of `Interface.__call__` and are not
part of the configuration, so they are not (and cannot be) examined
here. -/

/-- `Base._check_cfg` (base.py 97-108): raises `ValueError` unless
`DATA_PROCESSING_METHOD` is supported. -/
def check_cfg (data_processing_method : String) : Except String Unit :=
  if data_processing_method ∈ ["batch", "stream", "simulate_stream"] then
    Except.ok ()
  else
    Except.error ("Unsupported DATA_PROCESSING_METHOD: " ++ data_processing_method)

/-- `Base.__init__` line 69: `self.streaming = self.cfg
['DATA_PROCESSING_METHOD'] in ('stream', 'simulate_stream')`. -/
def streamingFlag (data_processing_method : String) : Bool :=
  data_processing_method = "stream" || data_processing_method = "simulate_stream"

/-! ## Model setup: `Interface._set_models` (src/isas/interface.py, 72-123)

Models are grouped by their `TASK` into a dict (`defaultdict(list)`,
preserving configuration order); for each task the input and output name
lists of its models are concatenated and the per-iteration import list is
`list(set(input_data_names) - set(output_data_names))` (interface.py
119). -/

/-- The statically declared part of a configured model that
`_set_models` consumes: its task category and its declared input/output
data names. -/
structure ModelSpec where
  task : String
  input_data_names : List String
  output_data_names : List String
deriving DecidableEq, Repr

/-- `self.import_data_names[task]` as computed by `_set_models`
(interface.py 104-119) for one task category, given all configured
models: inputs and outputs of the task's models are accumulated by
`list.extend` in order, then `list(set(inputs) - set(outputs))`. -/
def importDataNamesOfTask (models : List ModelSpec) (task : String) : List String :=
  let task_models := models.filter (fun m => m.task = task)
  let input_data_names := task_models.foldl (fun acc m => acc ++ m.input_data_names) []
  let output_data_names := task_models.foldl (fun acc m => acc ++ m.output_data_names) []
  input_data_names.dedup.filter (fun n => n ∉ output_data_names)

/-- The set the spec describes: the union of the category's models'
declared input names minus the union of the same category's models'
declared output names (stated from the spec's words, for comparison with
`importDataNamesOfTask`, which is translated from the source). -/
def specImportNames (models : List ModelSpec) (task : String) : Finset String :=
  (models.filter (fun m => m.task = task)).foldr
      (fun m s => m.input_data_names.toFinset ∪ s) ∅
    \ (models.filter (fun m => m.task = task)).foldr
      (fun m s => m.output_data_names.toFinset ∪ s) ∅

/-! ## Execution loop: `Interface.__call__` (src/isas/interface.py, 125-184)

Per call: if the configured mode is `simulate_stream`, explicit time
bounds raise `ValueError` and otherwise the streaming clock synthesizes
the window; then a fresh tag is generated and, for each task in
`('measurement', 'analysis')`, the still-needed names are imported and
merged, and the task's models are applied in order; finally the lineage
metadata is computed and merged.  The export step (interface.py 173-183)
writes to external stores / the export queue and does not change the
returned working data; it is outside the claims settled here and is not
embedded.

External collaborators are embedded from the spec's contracts (§1, §6):
* `DataManager.import_dynamic_data` returns the stored time series for
  exactly the requested names in the requested window, from the requested
  data system (`store` below);
* a model is an opaque function from the working data to a mapping of
  output name to a fresh DataFrame (or `None`), as `arrange_result`
  consumes it. -/

/-- `pd.DataFrame(tag, index=df.index)` (dynamic_data_utils.py 54): the
constant tag columns replicated over the rows of the result. -/
def tagDataFrame (tag : Tag) (nRows : Nat) : DataFrame :=
  [("batch_id", List.replicate nRows tag.batch_id),
   ("service_name", List.replicate nRows tag.service_name),
   ("batch_datetime", List.replicate nRows (toString tag.batch_datetime))]

/-- The number of rows of a (rectangular) DataFrame. -/
def DataFrame.numRows (df : DataFrame) : Nat :=
  (df.head?.map (fun p => p.2.length)).getD 0

/-- `arrange_result` (dynamic_data_utils.py 31-56): wrap each non-`None`
result frame as a `TimeSeriesData` stamped with the tag (the index/column
normalization of the source only reshapes the field values and is
abstracted away). -/
def arrange_result (res : List (String × Option DataFrame)) (tag : Option Tag) :
    DynamicData where
  time_series_data :=
    res.foldl
      (fun acc p =>
        match p.2 with
        | none => acc
        | some df =>
          acc ++ [(p.1,
            { fields := df
              tags := match tag with
                | some t => tagDataFrame t df.numRows
                | none => [] })])
      []
  time_series_batch_metadata := []

/-- A user-supplied model, per the spec's collaborator contract (§6):
"given the working data, returns a mapping of output field name → newly
computed series". -/
abbrev Model := DynamicData → List (String × Option DataFrame)

/-- `dict.get(k, default)` on an association list. -/
def lookupGet {α : Type} (l : List (String × α)) (k : String) (d : α) : α :=
  ((l.find? (fun p => p.1 = k)).map Prod.snd).getD d

/-- The configuration and collaborators `Interface.__call__` reads:
the processing mode and persistent time-series data system from
`self.cfg`, the per-task import names and models set up by `_set_models`,
the data store behind `DataManager.import_dynamic_data`, and the
simulated-streaming parameters. -/
structure InterfaceEnv where
  data_processing_method : String
  time_series_data_system : String
  import_data_names : List (String × List String)
  models : List (String × List Model)
  store : String → String → Option Int → Option Int → TimeSeriesData
  sim_params : SimulateStreamParams

/-- A record of one `data_manager.import_dynamic_data` call performed by
the loop: which task requested it, from which data system, and for which
names. -/
structure ImportEvent where
  task : String
  data_system : String
  data_name : List String
deriving DecidableEq, Repr

/-- The data-system selection of interface.py 151-152:
`streaming = False if task == 'measurement' else self.streaming;
data_system = 'streaming' if streaming else self.cfg['TIME_SERIES_DATA_SYSTEM']`. -/
def taskDataSystem (task : String) (streaming : Bool) (tsds : String) : String :=
  let s := if task = "measurement" then false else streaming
  if s then "streaming" else tsds

/-- Modelled from the spec: `DataManager.import_dynamic_data` belongs to
the external persistence layer (out of scope per §1); per §6 it returns
the stored working data for exactly the requested `data_name`s,
scoped to the requested data system and time window (`import_metadata` is
`False`, so no metadata is returned). -/
def importDynamicData
    (store : String → String → Option Int → Option Int → TimeSeriesData)
    (data_name : List String) (data_system : String)
    (first_datetime last_datetime : Option Int) : DynamicData where
  time_series_data :=
    data_name.map (fun n => (n, store data_system n first_datetime last_datetime))
  time_series_batch_metadata := []

/-- The import step of one task iteration (interface.py 150-164): select
the data system, request the task's still-needed names
(`list(set(self.import_data_names.get(task, [])) - set(dynamic_data.time_series_data.keys()))`),
and merge the result into the working data. -/
def taskImport (env : InterfaceEnv) (task : String)
    (first_datetime last_datetime : Option Int) (dd : DynamicData) :
    DynamicData × ImportEvent :=
  let data_system :=
    taskDataSystem task (streamingFlag env.data_processing_method)
      env.time_series_data_system
  let data_name :=
    (lookupGet env.import_data_names task []).dedup.filter (fun n => n ∉ dd.keys)
  (dd.update (importDynamicData env.store data_name data_system
      first_datetime last_datetime),
   ⟨task, data_system, data_name⟩)

/-- The model-application step of one task iteration (interface.py
166-169): apply each model of the task in configured order, merging
`arrange_result(res, tag)` into the working data after each. -/
def applyModels (ms : List Model) (tag : Tag) (dd : DynamicData) : DynamicData :=
  ms.foldl (fun dd m => dd.update (arrange_result (m dd) (some tag))) dd

/-- One task iteration of the `for task in tasks` loop of
`Interface.__call__`: import, then apply the task's models. -/
def runTask (env : InterfaceEnv) (tag : Tag) (task : String)
    (first_datetime last_datetime : Option Int) (dd : DynamicData) :
    DynamicData × ImportEvent :=
  let (dd', ev) := taskImport env task first_datetime last_datetime dd
  (applyModels (lookupGet env.models task []) tag dd', ev)

/-- The body of `Interface.__call__` after the window is determined
(interface.py 147-172): the `('measurement', 'analysis')` task loop
unrolled, followed by the lineage-metadata step.  Also returns the list
of import calls performed, in order. -/
def runCall (env : InterfaceEnv) (tag : Tag)
    (first_datetime last_datetime : Option Int) (dd : DynamicData) :
    DynamicData × List ImportEvent :=
  let (dd1, ev1) := runTask env tag "measurement" first_datetime last_datetime dd
  let (dd2, ev2) := runTask env tag "analysis" first_datetime last_datetime dd1
  let dependent_batch_id := get_dependencies dd2 tag
  (dd2.update (generate_time_series_batch_metadata tag dependent_batch_id),
   [ev1, ev2])

/-- `Interface.__call__` (interface.py 125-184): window determination
(including the `simulate_stream` bound check of lines 141-144, which
raises before anything else runs), then `runCall`.  Besides the
`ValueError`-or-result, the embedding returns the post-call streaming
cursor and the list of import calls performed (empty when the call
raised, witnessing that no import happened). -/
def interfaceCall (env : InterfaceEnv) (tag : Tag)
    (dynamic_data : Option DynamicData)
    (first_datetime last_datetime : Option Int) (cursor : Option Int) :
    Except String (DynamicData × Option Int) × List ImportEvent :=
  if env.data_processing_method = "simulate_stream" then
    if first_datetime.isSome || last_datetime.isSome then
      (Except.error "datetime must be None with simulate_stream.", [])
    else
      let ((f, l), cursor') := simulateStreaming env.sim_params cursor
      let (dd, evs) := runCall env tag (some f) (some l) (dynamic_data.getD {})
      (Except.ok (dd, cursor'), evs)
  else
    let (dd, evs) :=
      runCall env tag first_datetime last_datetime (dynamic_data.getD {})
    (Except.ok (dd, cursor), evs)

/-! ## Service shutdown path (src/isas/service/service.py, 93-160)

`Service.__call__` waits for dependencies, runs the workload
(`_run_interface` or `_run_dashboard`), then calls `self.exit()` which
stops the inbound receive loop.  `_run_interface` broadcasts the
readiness message, starts the `InterfaceThread`, and loops on the inbound
queue: an `exit` message makes it call `thread.stop()` (setting the
thread's stop event) and return; any other message is logged as
unsupported.  `_run_dashboard` broadcasts readiness, runs the dashboard
to completion, then broadcasts `exit`.

The embedding records the externally visible actions the service's main
thread performs, in order, when the given messages arrive after the
workload starts.  `joinLoopThread` is an action the main thread never
performs in the source (there is no `thread.join()` call in
`_run_interface`); its constructor exists so that theorems can state its
absence from the trace. -/

/-- An externally visible action of the service main thread. -/
inductive ServiceAction where
  /-- `self._send_message(self.service_name)` (service.py 109, 117). -/
  | broadcastReady
  /-- `thread.start()` (service.py 119). -/
  | startLoopThread
  /-- `thread.stop()` — sets the loop thread's stop event (service.py 126,
  174-175). -/
  | signalStop
  /-- `thread.join()` — present in the claims, absent from the source. -/
  | joinLoopThread
  /-- `self._send_message('exit')` (service.py 112, dashboard path only). -/
  | broadcastExit
  /-- `self.socket_server.stop()` via `Service.exit` (service.py 157-160). -/
  | stopRecvLoop
  /-- `dashboard()` runs to completion (service.py 110). -/
  | runDashboard
  /-- `logger.warning(... Unsupported message ...)` (service.py 129). -/
  | warnUnsupported (msg : String)
deriving DecidableEq, Repr

/-- The `while True` message loop of `Service._run_interface` (service.py
120-129), run against the messages the inbound queue delivers: the
actions performed, and whether the loop returned (`false` = every message
was consumed and the loop is still blocked on `recv_queue.get()`). -/
def runInterfaceLoop : List String → List ServiceAction × Bool
  | [] => ([], false)
  | m :: rest =>
    if m = "exit" then ([ServiceAction.signalStop], true)
    else
      let (as, r) := runInterfaceLoop rest
      (ServiceAction.warnUnsupported m :: as, r)

/-- `Service.__call__` with the `Interface` workload, from workload
construction onward (service.py 98-99, 104, 114-129, 157-160): the
ordered actions of the main thread given the inbound messages.
`self.exit()` (stopping the receive loop) runs only if `_run_interface`
returned. -/
def serviceCallInterface (msgs : List String) : List ServiceAction :=
  let (as, returned) := runInterfaceLoop msgs
  [ServiceAction.broadcastReady, ServiceAction.startLoopThread] ++ as ++
    (if returned then [ServiceAction.stopRecvLoop] else [])

/-- `Service.__call__` with the `Dashboard` workload (service.py 100-101,
104, 106-112, 157-160): broadcast readiness, run the dashboard, broadcast
`exit`, stop the receive loop. -/
def serviceCallDashboard : List ServiceAction :=
  [ServiceAction.broadcastReady, ServiceAction.runDashboard,
   ServiceAction.broadcastExit, ServiceAction.stopRecvLoop]

/-! ## Concrete instances used by witnesses -/

/-- A minimal `InterfaceEnv` with the given processing mode: no models, no
required names, an empty backing store. -/
def testEnv (method : String) : InterfaceEnv where
  data_processing_method := method
  time_series_data_system := "file"
  import_data_names := []
  models := []
  store := fun _ _ _ _ => ⟨[], []⟩
  sim_params := ⟨1, false, 0, 0, 1⟩

/-- A fixed tag standing in for a `generate_tag` result. -/
def testTag : Tag := ⟨"svc_2020-04-01", "svc", 0⟩

/-! ## Helper lemmas -/

/-- Membership in a `foldl` that appends `f m` for each element. -/
lemma mem_foldl_append {α β : Type} (f : β → List α) (l : List β)
    (acc : List α) (x : α) :
    x ∈ l.foldl (fun acc m => acc ++ f m) acc ↔ x ∈ acc ∨ ∃ m ∈ l, x ∈ f m := by
  induction l generalizing acc with
  | nil => simp
  | cons b rest ih =>
    simp [List.foldl_cons, ih, List.mem_append, or_assoc]

/-- Membership in a `foldr` that unions `(g m).toFinset` for each element. -/
lemma mem_foldr_union {β : Type} (g : β → List String) (l : List β) (x : String) :
    x ∈ l.foldr (fun m s => (g m).toFinset ∪ s) ∅ ↔ ∃ m ∈ l, x ∈ g m := by
  induction l with
  | nil => simp
  | cons b rest ih => simp [ih]

/-! ## Claim C8: `SocketClient.send` never raises and retries forever -/

lemma send_replicate_false (n : Nat) :
    send (List.replicate n false) = SendResult.retrying n n := by
  induction n with
  | zero => rfl
  | succ n ih => simp [List.replicate_succ, send, ih]

lemma send_first_success (k : Nat) (rest : List Bool) :
    send (List.replicate k false ++ true :: rest) = SendResult.sent (k + 1) k := by
  induction k with
  | zero => rfl
  | succ k ih => simp [List.replicate_succ, send, ih]

lemma send_sent_iff (outcomes : List Bool) :
    (∃ a s, send outcomes = SendResult.sent a s) ↔ true ∈ outcomes := by
  induction outcomes with
  | nil => simp [send]
  | cons b rest ih =>
    cases b with
    | false =>
      rw [List.mem_cons]
      cases h : send rest with
      | sent a s =>
        constructor
        · intro _; exact Or.inr (ih.mp ⟨a, s, h⟩)
        · intro _; exact ⟨a + 1, s + 1, by simp [send, h]⟩
      | retrying a s =>
        constructor
        · rintro ⟨a', s', hs⟩
          rw [show send (false :: rest) = SendResult.retrying (a + 1) (s + 1) from
            by simp [send, h]] at hs
          cases hs
        · rintro (hb | hm)
          · cases hb
          · rcases ih.mpr hm with ⟨a', s', hs⟩
            rw [hs] at h
            cases h
    | true =>
      simp [send]

/-- Claim C8: the message channel's `send` never propagates a connection
error.  Run against any finite sequence of connection outcomes, it (i)
returns normally exactly when some connect-and-write succeeded, (ii) when
the first success is the `(k+1)`-st attempt it returns after `k` failed
attempts each followed by a fixed one-second sleep, and (iii) on an
all-failing sequence of any length it is still retrying — one sleep per
failure — rather than raising. -/
theorem send_retries_never_raises (outcomes : List Bool) :
    ((∃ a s, send outcomes = SendResult.sent a s) ↔ true ∈ outcomes)
    ∧ (∀ k rest, outcomes = List.replicate k false ++ true :: rest →
        send outcomes = SendResult.sent (k + 1) k)
    ∧ (∀ n, send (List.replicate n false) = SendResult.retrying n n) :=
  ⟨send_sent_iff outcomes,
   fun k rest h => h ▸ send_first_success k rest,
   send_replicate_false⟩

/-- Witness for C8 at a concrete outcome sequence: two failures then a
success yield a normal return after three attempts and two sleeps. -/
theorem send_retries_never_raises_witness :
    send [false, false, true] = SendResult.sent 3 2 :=
  (send_retries_never_raises [false, false, true]).2.1 2 [] rfl

/-! ## Claim C3: the streaming clock -/

/-- Claim C3: `Interface._simulate_streaming` resets its cursor to the
configured first time exactly when the cursor is unset or when `loop` is
true and the cursor has reached or passed the configured last time; it
emits `(cursor, cursor + interval)` and advances the cursor to
`cursor + interval`.  Concretely, with `first_time = T0`,
`interval = 60 s`, `loop = false`, the first call returns
`(T0, T0 + 60)`, the second `(T0 + 60, T0 + 120)`, and every further call
keeps advancing without ever resetting. -/
theorem simulate_streaming_correct (cfg : SimulateStreamParams) :
    (simulateStreaming cfg none =
      ((cfg.first_datetime, cfg.first_datetime + cfg.interval),
        some (cfg.first_datetime + cfg.interval)))
    ∧ (∀ t : Int, cfg.loop = true → cfg.last_datetime ≤ t →
        simulateStreaming cfg (some t) =
          ((cfg.first_datetime, cfg.first_datetime + cfg.interval),
            some (cfg.first_datetime + cfg.interval)))
    ∧ (∀ t : Int, cfg.loop = false ∨ t < cfg.last_datetime →
        simulateStreaming cfg (some t) =
          ((t, t + cfg.interval), some (t + cfg.interval)))
    ∧ (∀ (T0 L : Int) (s : Nat),
        simulateStreaming ⟨s, false, T0, L, 60⟩ none =
          ((T0, T0 + 60), some (T0 + 60))
        ∧ simulateStreaming ⟨s, false, T0, L, 60⟩ (some (T0 + 60)) =
            ((T0 + 60, T0 + 120), some (T0 + 120))
        ∧ ∀ t : Int, simulateStreaming ⟨s, false, T0, L, 60⟩ (some t) =
            ((t, t + 60), some (t + 60))) := by
  refine ⟨by simp [simulateStreaming], ?_, ?_, ?_⟩
  · intro t hl hle
    simp [simulateStreaming, hl, hle]
  · intro t h
    rcases h with h | h
    · simp [simulateStreaming, h]
    · have hd : decide (cfg.last_datetime ≤ t) = false :=
        decide_eq_false (not_le.mpr h)
      simp [simulateStreaming, hd]
  · intro T0 L s
    refine ⟨by simp [simulateStreaming], ?_, ?_⟩
    · simp [simulateStreaming]
      omega
    · intro t
      simp [simulateStreaming]

/-- Witness for C3 at a concrete configuration: with `loop = true` and the
cursor at the configured last time, the clock resets to the first
time. -/
theorem simulate_streaming_correct_witness :
    simulateStreaming ⟨1, true, 0, 100, 60⟩ (some 100) = ((0, 60), some 60) :=
  (simulate_streaming_correct ⟨1, true, 0, 100, 60⟩).2.1 100 rfl (by decide)

/-! ## Claim C10: per-task import names computed by `_set_models` -/

/-- Claim C10: for every task category, the per-iteration import list is
the union of the category's models' declared input names minus the union
of the same category's models' declared output names; in particular a
name produced by any model of the category is never scheduled for import,
even when another model of the same category lists it as an input. -/
theorem import_data_names_correct (models : List ModelSpec) (task : String) :
    (importDataNamesOfTask models task).toFinset = specImportNames models task
    ∧ (∀ n m, m ∈ models → m.task = task → n ∈ m.output_data_names →
        n ∉ importDataNamesOfTask models task) := by
  have hmem : ∀ x, x ∈ importDataNamesOfTask models task ↔
      (∃ m ∈ models.filter (fun m => m.task = task), x ∈ m.input_data_names)
      ∧ ¬ ∃ m ∈ models.filter (fun m => m.task = task), x ∈ m.output_data_names := by
    intro x
    simp only [importDataNamesOfTask, List.mem_filter, List.mem_dedup,
      mem_foldl_append (fun m : ModelSpec => m.input_data_names),
      mem_foldl_append (fun m : ModelSpec => m.output_data_names),
      List.not_mem_nil, false_or, decide_eq_true_eq]
  constructor
  · ext x
    simp only [List.mem_toFinset, hmem, specImportNames, Finset.mem_sdiff,
      mem_foldr_union (fun m : ModelSpec => m.input_data_names),
      mem_foldr_union (fun m : ModelSpec => m.output_data_names)]
  · intro n m hm ht hout hn
    exact ((hmem n).mp hn).2 ⟨m, List.mem_filter.mpr ⟨hm, by simp [ht]⟩, hout⟩

/-- Witness for C10 at a concrete model list: with one measurement model
producing `"a"` and another consuming `"a"` and `"b"`, only `"b"` is
scheduled for import. -/
theorem import_data_names_correct_witness :
    "a" ∉ importDataNamesOfTask
      [⟨"measurement", [], ["a"]⟩, ⟨"measurement", ["a", "b"], ["c"]⟩]
      "measurement" :=
  (import_data_names_correct
      [⟨"measurement", [], ["a"]⟩, ⟨"measurement", ["a", "b"], ["c"]⟩]
      "measurement").2 "a" ⟨"measurement", [], ["a"]⟩ (by simp) rfl (by simp)

/-! ## Claim C5: the service's exit path (corrected)

On receiving `exit`, `Service._run_interface` calls `thread.stop()` —
which only sets the loop thread's stop event — and returns; then
`Service.__call__` calls `self.exit()`, stopping the inbound receive
loop.  The main thread never calls `thread.join()` and never broadcasts
`exit` to peers; broadcasting `exit` happens only on the Dashboard path
(`_run_dashboard`, service.py 112). -/

lemma runInterfaceLoop_exit (pre : List String) (h : "exit" ∉ pre) :
    runInterfaceLoop (pre ++ ["exit"]) =
      (pre.map ServiceAction.warnUnsupported ++ [ServiceAction.signalStop],
        true) := by
  induction pre with
  | nil => rfl
  | cons m rest ih =>
    have hm : ¬ (m = "exit") := fun e => h (by simp [e])
    have hrest : "exit" ∉ rest := fun hx => h (List.mem_cons_of_mem _ hx)
    simp [runInterfaceLoop, hm, ih hrest]

/-- Counterexample to C5 as stated: when the running service receives
`exit`, its main thread neither joins the loop thread nor broadcasts
`exit` to its peers. -/
theorem service_exit_no_join_no_broadcast :
    ServiceAction.joinLoopThread ∉ serviceCallInterface ["exit"]
    ∧ ServiceAction.broadcastExit ∉ serviceCallInterface ["exit"] := by
  decide

/-- Claim C5 (amended): when the service's barrier receives an `exit`
message while the Interface workload runs, the main thread signals the
running loop to terminate (setting its stop event) and then stops the
inbound receive loop, in that order; it performs no join of the loop
thread (the loop thread finishes its current iteration and calls the
interface's own exit) and broadcasts no `exit` to peers — only the
Dashboard workload path broadcasts `exit`. -/
theorem service_exit_sequence (pre : List String) (h : "exit" ∉ pre) :
    serviceCallInterface (pre ++ ["exit"]) =
      [ServiceAction.broadcastReady, ServiceAction.startLoopThread] ++
        pre.map ServiceAction.warnUnsupported ++
        [ServiceAction.signalStop, ServiceAction.stopRecvLoop]
    ∧ ServiceAction.broadcastExit ∈ serviceCallDashboard := by
  constructor
  · simp [serviceCallInterface, runInterfaceLoop_exit pre h]
  · simp [serviceCallDashboard]

/-- Witness for the amended C5 at a concrete message sequence. -/
theorem service_exit_sequence_witness :
    serviceCallInterface ["ping", "exit"] =
      [ServiceAction.broadcastReady, ServiceAction.startLoopThread] ++
        ["ping"].map ServiceAction.warnUnsupported ++
        [ServiceAction.signalStop, ServiceAction.stopRecvLoop]
    ∧ ServiceAction.broadcastExit ∈ serviceCallDashboard :=
  service_exit_sequence ["ping"] (by decide)

/-! ## Claim C4: where the simulate_stream bound check happens (corrected)

The explicit time bounds are arguments of `Interface.__call__`, not part
of the configuration: the construction-time check `Base._check_cfg` only
validates the mode string and accepts `simulate_stream` unconditionally.
The `ValueError` for explicit bounds under `simulate_stream` is raised at
the start of each call (interface.py 141-143), before any import. -/

/-- Counterexample to C4 as stated: construction of an interface
configured with `simulate_stream` succeeds — the construction-time check
does not (and cannot) see the per-call time bounds — and the error is
raised only by the call itself. -/
theorem simulate_stream_bounds_not_checked_at_construction :
    check_cfg "simulate_stream" = Except.ok ()
    ∧ (interfaceCall (testEnv "simulate_stream") testTag none (some 0) none
        none).1 =
      Except.error "datetime must be None with simulate_stream." := by
  constructor
  · rfl
  · rfl

/-- Claim C4 (amended): supplying an explicit `first_time` or `last_time`
bound together with the `simulate_stream` processing mode fails fast at
call time: every such call raises a `ValueError` at its start, before the
barrier-gated loop body runs and before any import happens (the call
performs no import events); construction only validates the mode
string. -/
theorem simulate_stream_bounds_fail_at_call (env : InterfaceEnv) (tag : Tag)
    (dynamic_data : Option DynamicData)
    (first_datetime last_datetime cursor : Option Int)
    (hm : env.data_processing_method = "simulate_stream")
    (hb : first_datetime.isSome ∨ last_datetime.isSome) :
    interfaceCall env tag dynamic_data first_datetime last_datetime cursor =
      (Except.error "datetime must be None with simulate_stream.", []) := by
  have hb' : (first_datetime.isSome || last_datetime.isSome) = true := by
    rcases hb with h | h <;> simp [h]
  simp [interfaceCall, hm, hb']

/-- Witness for the amended C4 at a concrete environment and bound. -/
theorem simulate_stream_bounds_fail_at_call_witness :
    interfaceCall (testEnv "simulate_stream") testTag none none (some 7) none =
      (Except.error "datetime must be None with simulate_stream.", []) :=
  simulate_stream_bounds_fail_at_call (testEnv "simulate_stream") testTag none
    none (some 7) none rfl (Or.inr rfl)

/-! ## Claim C9: data systems used by the per-task imports -/

/-- Claim C9: within one iteration, the measurement task always imports
from the configured persistent time-series data system, while the
analysis task imports from the `streaming` data system exactly when the
mode is `stream` or `simulate_stream`; in batch mode (or any
non-streaming mode) both tasks import from the configured persistent
system. -/
theorem task_import_data_systems (env : InterfaceEnv) (tag : Tag)
    (first_datetime last_datetime : Option Int) (dd : DynamicData) :
    ((runCall env tag first_datetime last_datetime dd).2.map
        (fun e => (e.task, e.data_system))) =
      [("measurement", env.time_series_data_system),
       ("analysis",
        if env.data_processing_method = "stream"
            ∨ env.data_processing_method = "simulate_stream" then
          "streaming"
        else env.time_series_data_system)] := by
  by_cases h : env.data_processing_method = "stream"
      ∨ env.data_processing_method = "simulate_stream"
  · have hs : streamingFlag env.data_processing_method = true := by
      rcases h with h | h <;> simp [streamingFlag, h]
    simp [runCall, runTask, taskImport, taskDataSystem, hs, h]
  · have hs : streamingFlag env.data_processing_method = false := by
      push_neg at h
      simp [streamingFlag, h.1, h.2]
    simp [runCall, runTask, taskImport, taskDataSystem, hs, h]

/-! ## Claims C2 and C7: lineage computation -/

lemma getColumn_eq_nil_of_not_mem_columns (df : DataFrame) (c : String)
    (h : c ∉ df.columns) : df.getColumn c = [] := by
  have hf : df.find? (fun p => p.1 = c) = none := by
    rw [List.find?_eq_none]
    intro p hp
    simp only [decide_eq_true_eq]
    intro e
    exact h (by
      simpa [DataFrame.columns, e] using List.mem_map_of_mem Prod.fst hp)
  simp [DataFrame.getColumn, hf]

/-- Membership in the batch-id collection loop of `get_dependencies`:
exactly the values of some series' `batch_id` tag column (the
column-presence guard is redundant for membership, since an absent column
contributes no values). -/
lemma mem_collectBatchIds (l : List (String × TimeSeriesData))
    (acc : List String) (x : String) :
    x ∈ l.foldl
        (fun acc p =>
          if "batch_id" ∈ p.2.tags.columns then
            acc ++ dropDuplicates (p.2.tags.getColumn "batch_id")
          else acc)
        acc
      ↔ x ∈ acc ∨ ∃ p ∈ l, x ∈ p.2.tags.getColumn "batch_id" := by
  induction l generalizing acc with
  | nil => simp
  | cons q rest ih =>
    rw [List.foldl_cons]
    by_cases hc : "batch_id" ∈ q.2.tags.columns
    · rw [if_pos hc, ih]
      simp [dropDuplicates, List.mem_append, or_assoc]
    · rw [if_neg hc, ih]
      simp [getColumn_eq_nil_of_not_mem_columns _ _ hc]

lemma mem_allBatchIds (dd : DynamicData) (x : String) :
    x ∈ dd.allBatchIds ↔
      ∃ p ∈ dd.time_series_data, x ∈ p.2.tags.getColumn "batch_id" := by
  simpa using
    mem_foldl_append (fun p : String × TimeSeriesData =>
      p.2.tags.getColumn "batch_id") dd.time_series_data [] x

lemma mem_get_dependencies (dd : DynamicData) (tag : Tag) (x : String) :
    x ∈ get_dependencies dd tag ↔ x ∈ dd.allBatchIds ∧ x ≠ tag.batch_id := by
  simp [get_dependencies, List.mem_filter, List.mem_dedup,
    mem_collectBatchIds, mem_allBatchIds]

/-- Claim C2: for every working data set and current tag, the computed
lineage dependency set equals the set of distinct `batch_id` values found
in the tags of all time-series rows present in the working data, minus
the current batch's own `batch_id`; when no row carries a `batch_id` tag
the result is empty, and when the only tag value present is a foreign
`b1` the result is exactly `{b1}`. -/
theorem get_dependencies_correct (dd : DynamicData) (tag : Tag) :
    (get_dependencies dd tag).toFinset = dd.allBatchIds.toFinset \ {tag.batch_id}
    ∧ (dd.allBatchIds = [] → get_dependencies dd tag = [])
    ∧ (∀ b1 : String, dd.allBatchIds.toFinset = {b1} → b1 ≠ tag.batch_id →
        (get_dependencies dd tag).toFinset = {b1}) := by
  have hset : (get_dependencies dd tag).toFinset =
      dd.allBatchIds.toFinset \ {tag.batch_id} := by
    ext x
    simp [List.mem_toFinset, mem_get_dependencies, Finset.mem_sdiff]
  refine ⟨hset, ?_, ?_⟩
  · intro h
    have : (get_dependencies dd tag).toFinset = ∅ := by
      simp [hset, h]
    simpa [List.toFinset_eq_empty_iff] using this
  · intro b1 hb hne
    rw [hset, hb]
    ext x
    simp only [Finset.mem_sdiff, Finset.mem_singleton]
    constructor
    · exact fun h => h.1
    · intro h
      exact ⟨h, fun e => hne (h ▸ e)⟩

/-- A time series whose rows are tagged with batch id `b1`. -/
def sampleTS : TimeSeriesData where
  fields := [("f", ["1"])]
  tags := [("batch_id", ["b1"]), ("service_name", ["s"])]

/-- A working data set whose only tagged series carries batch id `b1`. -/
def sampleDD : DynamicData where
  time_series_data := [("res", sampleTS)]
  time_series_batch_metadata := []

/-- Witness for C2 at a concrete working data set: with the only foreign
tag `b1` and a current tag `b2`, the dependency set is exactly `{b1}`. -/
theorem get_dependencies_correct_witness :
    (get_dependencies sampleDD ⟨"b2", "s", 0⟩).toFinset = {"b1"} :=
  (get_dependencies_correct sampleDD ⟨"b2", "s", 0⟩).2.2 "b1" (by decide)
    (by decide)

/-- Claim C7: lineage is a function of the consumed tags only — for every
working data set and any two tags whose own batch ids do not occur among
the data's tags, the computed dependency lists coincide. -/
theorem get_dependencies_tag_independent (dd : DynamicData) (t1 t2 : Tag)
    (h1 : t1.batch_id ∉ dd.allBatchIds) (h2 : t2.batch_id ∉ dd.allBatchIds) :
    get_dependencies dd t1 = get_dependencies dd t2 := by
  have key : ∀ t : Tag, t.batch_id ∉ dd.allBatchIds →
      get_dependencies dd t =
        (dd.time_series_data.foldl
          (fun acc p =>
            if "batch_id" ∈ p.2.tags.columns then
              acc ++ dropDuplicates (p.2.tags.getColumn "batch_id")
            else acc)
          []).dedup := by
    intro t ht
    apply List.filter_eq_self.mpr
    intro x hx
    have hx' : x ∈ dd.allBatchIds := by
      have := (List.mem_dedup.mp hx)
      exact (mem_collectBatchIds _ [] x).mp this |>.elim
        (fun h => absurd h (List.not_mem_nil x))
        (fun h => (mem_allBatchIds dd x).mpr h)
    simp only [decide_eq_true_eq]
    exact fun e => ht (e ▸ hx')
  rw [key t1 h1, key t2 h2]

/-- Witness for C7 at a concrete working data set: two foreign tags `x`
and `y` compute the same dependencies over `sampleDD`. -/
theorem get_dependencies_tag_independent_witness :
    get_dependencies sampleDD ⟨"x", "s", 0⟩ =
      get_dependencies sampleDD ⟨"y", "s", 0⟩ :=
  get_dependencies_tag_independent sampleDD ⟨"x", "s", 0⟩ ⟨"y", "s", 0⟩
    (by decide) (by decide)

/-! ## Claim C6: the per-task import never overwrites present data -/

/-- Looking a name up in the working data
(`dynamic_data.time_series_data[k]`). -/
def DynamicData.lookupTS (dd : DynamicData) (k : String) : Option TimeSeriesData :=
  (dd.time_series_data.find? (fun p => p.1 = k)).map Prod.snd

lemma find?_map_replace {α : Type} (base : List (String × α)) (p : String × α)
    (k : String) (hk : k ≠ p.1) :
    (base.map (fun q => if q.1 = p.1 then p else q)).find? (fun q => q.1 = k)
      = base.find? (fun q => q.1 = k) := by
  induction base with
  | nil => rfl
  | cons q rest ih =>
    by_cases hqk : q.1 = k
    · have hqp : ¬ q.1 = p.1 := fun e => hk (by rw [← hqk, e])
      rw [List.map_cons, if_neg hqp,
        List.find?_cons_of_pos _ (by simp [hqk]),
        List.find?_cons_of_pos _ (by simp [hqk])]
    · by_cases hq : q.1 = p.1
      · rw [List.map_cons, if_pos hq,
          List.find?_cons_of_neg _
            (by simp only [decide_eq_true_eq]; exact fun e => hk e.symm),
          List.find?_cons_of_neg _ (by simp [hqk])]
        exact ih
      · rw [List.map_cons, if_neg hq,
          List.find?_cons_of_neg _ (by simp [hqk]),
          List.find?_cons_of_neg _ (by simp [hqk])]
        exact ih

lemma find?_append_singleton_of_ne {α : Type} (base : List (String × α))
    (p : String × α) (k : String) (hk : ¬ p.1 = k) :
    (base ++ [p]).find? (fun q => q.1 = k) = base.find? (fun q => q.1 = k) := by
  induction base with
  | nil =>
    rw [List.nil_append, List.find?_cons_of_neg _ (by simp [hk])]
  | cons q rest ih =>
    by_cases hq : q.1 = k
    · rw [List.cons_append, List.find?_cons_of_pos _ (by simp [hq]),
        List.find?_cons_of_pos _ (by simp [hq])]
    · rw [List.cons_append, List.find?_cons_of_neg _ (by simp [hq]),
        List.find?_cons_of_neg _ (by simp [hq])]
      exact ih

lemma find?_alistUpdate_of_not_mem {α : Type} (new : List (String × α)) :
    ∀ (base : List (String × α)) (k : String), k ∉ new.map Prod.fst →
      (alistUpdate base new).find? (fun q => q.1 = k)
        = base.find? (fun q => q.1 = k) := by
  induction new with
  | nil => intro base k _; rfl
  | cons p rest ih =>
    intro base k h
    have hk : k ≠ p.1 := fun e => h (e ▸ List.mem_cons_self _ _)
    have hrest : k ∉ rest.map Prod.fst := fun hx => h (List.mem_cons_of_mem _ hx)
    rw [show alistUpdate base (p :: rest)
        = alistUpdate
            (if base.any (fun q => q.1 = p.1) then
              base.map (fun q => if q.1 = p.1 then p else q)
            else base ++ [p]) rest from rfl]
    rw [ih _ k hrest]
    by_cases hb : base.any (fun q => q.1 = p.1) = true
    · rw [if_pos hb]
      exact find?_map_replace base p k hk
    · rw [if_neg hb]
      exact find?_append_singleton_of_ne base p k (fun e => hk e.symm)

/-- `DynamicData.update` leaves every name absent from the argument
untouched. -/
lemma lookupTS_update_of_not_key (dd other : DynamicData) (k : String)
    (h : k ∉ other.time_series_data.map Prod.fst) :
    (dd.update other).lookupTS k = dd.lookupTS k := by
  unfold DynamicData.lookupTS DynamicData.update
  rw [find?_alistUpdate_of_not_mem _ _ _ h]

lemma mem_keys_of_lookupTS (dd : DynamicData) (k : String) (v : TimeSeriesData)
    (h : dd.lookupTS k = some v) : k ∈ dd.keys := by
  unfold DynamicData.lookupTS at h
  cases hf : dd.time_series_data.find? (fun p => p.1 = k) with
  | none => rw [hf] at h; cases h
  | some q =>
    have hq : q.1 = k := by
      have := List.find?_some hf
      simpa using this
    have hmem : q ∈ dd.time_series_data := List.mem_of_find?_eq_some hf
    exact hq ▸ List.mem_map_of_mem Prod.fst hmem

/-- Claim C6: the import step of each task iteration requests exactly the
names the task requires that are not already present in the working data,
and merging the imported data leaves every entry already present —
pre-seeded or produced earlier in the iteration — unchanged. -/
theorem task_import_no_overwrite (env : InterfaceEnv) (task : String)
    (first_datetime last_datetime : Option Int) (dd : DynamicData) :
    ((taskImport env task first_datetime last_datetime dd).2.data_name.toFinset
      = (lookupGet env.import_data_names task []).toFinset \ dd.keys.toFinset)
    ∧ (∀ k v, dd.lookupTS k = some v →
        ((taskImport env task first_datetime last_datetime dd).1).lookupTS k
          = some v) := by
  constructor
  · ext x
    simp [taskImport, List.mem_filter, List.mem_dedup, Finset.mem_sdiff,
      List.mem_toFinset]
  · intro k v hv
    have hk : k ∈ dd.keys := mem_keys_of_lookupTS dd k v hv
    have hnot : k ∉ (importDynamicData env.store
        ((lookupGet env.import_data_names task []).dedup.filter
          (fun n => n ∉ dd.keys))
        (taskDataSystem task (streamingFlag env.data_processing_method)
          env.time_series_data_system)
        first_datetime last_datetime).time_series_data.map Prod.fst := by
      simp only [importDynamicData, List.map_map, Function.comp,
        List.mem_map, List.mem_filter, List.mem_dedup, decide_eq_true_eq,
        not_exists, not_and]
      rintro n ⟨_, hn⟩ rfl
      exact absurd hk hn
    show (dd.update (importDynamicData env.store
        ((lookupGet env.import_data_names task []).dedup.filter
          (fun n => n ∉ dd.keys))
        (taskDataSystem task (streamingFlag env.data_processing_method)
          env.time_series_data_system)
        first_datetime last_datetime)).lookupTS k = some v
    rw [lookupTS_update_of_not_key _ _ _ hnot]
    exact hv

/-- An environment whose measurement task requires `"a"` and `"res"`. -/
def sampleEnv : InterfaceEnv where
  data_processing_method := "batch"
  time_series_data_system := "file"
  import_data_names := [("measurement", ["a", "res"])]
  models := []
  store := fun _ _ _ _ => ⟨[], []⟩
  sim_params := ⟨1, false, 0, 0, 1⟩

/-- Witness for C6 at a concrete iteration state: `"res"` is already
present in the working data, so the measurement import leaves it
unchanged. -/
theorem task_import_no_overwrite_witness :
    (taskImport sampleEnv "measurement" none none sampleDD).1.lookupTS "res"
      = some sampleTS :=
  (task_import_no_overwrite sampleEnv "measurement" none none sampleDD).2
    "res" sampleTS (by decide)

/-! ## Claim C1: the dependency barrier -/

lemma all_contains_iff (deps l : List String) :
    (deps.all fun d => l.contains d) = true ↔ ∀ d ∈ deps, d ∈ l := by
  simp [List.all_eq_true]

lemma waitAux_cons (deps received : List String) (m : String)
    (msgs : List String) :
    waitDependenciesAux deps received (m :: msgs) =
      if (deps.all fun d => (received ++ [m]).contains d) = true then some 1
      else (waitDependenciesAux deps (received ++ [m]) msgs).map (· + 1) := by
  rfl

lemma mem_append_cons_iff {α : Type} (a : α) (l : List α) (m : α)
    (r : List α) : a ∈ l ++ m :: r ↔ a ∈ (l ++ [m]) ++ r := by
  rw [List.append_assoc, List.singleton_append]

/-- The barrier loop returns, on some prefix of `msgs`, exactly when the
messages delivered cover the dependencies not already covered by
`received`. -/
lemma waitAux_isSome_iff (deps : List String) :
    ∀ (msgs received : List String), ¬ (∀ d ∈ deps, d ∈ received) →
      ((waitDependenciesAux deps received msgs).isSome ↔
        ∀ d ∈ deps, d ∈ received ++ msgs) := by
  intro msgs
  induction msgs with
  | nil =>
    intro received h
    simpa [waitDependenciesAux] using h
  | cons m rest ih =>
    intro received h
    rw [waitAux_cons]
    by_cases hc : (deps.all fun d => (received ++ [m]).contains d) = true
    · rw [if_pos hc]
      have hsup : ∀ d ∈ deps, d ∈ received ++ [m] := (all_contains_iff _ _).mp hc
      constructor
      · intro _ d hd
        exact (mem_append_cons_iff d received m rest).mpr
          (List.mem_append.mpr (Or.inl (hsup d hd)))
      · intro _
        rfl
    · rw [if_neg hc]
      have h' : ¬ ∀ d ∈ deps, d ∈ received ++ [m] :=
        fun hall => hc ((all_contains_iff _ _).mpr hall)
      have hmap : ((waitDependenciesAux deps (received ++ [m]) rest).map
          (· + 1)).isSome
          = (waitDependenciesAux deps (received ++ [m]) rest).isSome := by
        cases waitDependenciesAux deps (received ++ [m]) rest <;> rfl
      rw [hmap, ih (received ++ [m]) h']
      constructor
      · intro hall d hd
        exact (mem_append_cons_iff d received m rest).mpr (hall d hd)
      · intro hall d hd
        exact (mem_append_cons_iff d received m rest).mp (hall d hd)

/-- Exact characterization of the barrier's return point: it returns
after pulling `n` messages exactly when the first `n` messages (together
with what was already received) cover the dependencies and no shorter
prefix does — the barrier becomes ready the moment the accumulated set
reaches the dependency set, and not before. -/
lemma waitAux_eq_some_iff (deps : List String) :
    ∀ (msgs received : List String) (n : Nat),
      ¬ (∀ d ∈ deps, d ∈ received) →
      (waitDependenciesAux deps received msgs = some n ↔
        (1 ≤ n ∧ (∀ d ∈ deps, d ∈ received ++ msgs.take n)
          ∧ ∀ k, k < n → ¬ (∀ d ∈ deps, d ∈ received ++ msgs.take k))) := by
  intro msgs
  induction msgs with
  | nil =>
    intro received n h
    constructor
    · intro hx; cases hx
    · rintro ⟨_, h2, _⟩
      exact absurd (by simpa using h2) h
  | cons m rest ih =>
    intro received n h
    rw [waitAux_cons]
    by_cases hc : (deps.all fun d => (received ++ [m]).contains d) = true
    · rw [if_pos hc]
      have hsup : ∀ d ∈ deps, d ∈ received ++ [m] := (all_contains_iff _ _).mp hc
      constructor
      · intro hx
        have hn : n = 1 := (Option.some.inj hx).symm
        subst hn
        refine ⟨le_refl 1, ?_, ?_⟩
        · intro d hd
          rw [List.take_succ_cons, List.take_zero]
          exact hsup d hd
        · intro k hk
          have hk0 : k = 0 := by omega
          subst hk0
          simpa using h
      · rintro ⟨h1, h2, h3⟩
        have hn : n = 1 := by
          by_contra hne
          exact h3 1 (by omega) (by
            intro d hd
            rw [List.take_succ_cons, List.take_zero]
            exact hsup d hd)
        rw [hn]
    · rw [if_neg hc]
      have h' : ¬ ∀ d ∈ deps, d ∈ received ++ [m] :=
        fun hall => hc ((all_contains_iff _ _).mpr hall)
      constructor
      · intro hx
        rcases Option.map_eq_some'.mp hx with ⟨n', hn', hb⟩
        subst hb
        obtain ⟨h1, h2, h3⟩ := (ih (received ++ [m]) n' h').mp hn'
        refine ⟨by omega, ?_, ?_⟩
        · intro d hd
          rw [List.take_succ_cons]
          exact (mem_append_cons_iff d received m (rest.take n')).mpr (h2 d hd)
        · intro k hk
          match k with
          | 0 => simpa using h
          | j + 1 =>
            intro hall
            apply h3 j (by omega)
            intro d hd
            have := hall d hd
            rw [List.take_succ_cons] at this
            exact (mem_append_cons_iff d received m (rest.take j)).mp this
      · rintro ⟨h1, h2, h3⟩
        match n, h1 with
        | 1, _ =>
          exact absurd (by
            intro d hd
            have := h2 d hd
            rw [List.take_succ_cons, List.take_zero] at this
            exact this) h'
        | n' + 2, _ =>
          have hn' : waitDependenciesAux deps (received ++ [m]) rest
              = some (n' + 1) := by
            apply (ih (received ++ [m]) (n' + 1) h').mpr
            refine ⟨by omega, ?_, ?_⟩
            · intro d hd
              have := h2 d hd
              rw [List.take_succ_cons] at this
              exact (mem_append_cons_iff d received m (rest.take (n' + 1))).mp
                this
            · intro k hk hall
              apply h3 (k + 1) (by omega)
              intro d hd
              rw [List.take_succ_cons]
              exact (mem_append_cons_iff d received m (rest.take k)).mpr
                (hall d hd)
          rw [hn']
          rfl

/-- Claim C1: the barrier's wait returns (the service goes ready) iff the
set of distinct messages received covers the declared dependency set,
regardless of arrival order — it returns after pulling exactly the
shortest message prefix that covers the dependencies, and not before —
and with an empty dependency set it returns immediately, pulling no
message from the inbound queue. -/
theorem wait_dependencies_correct (deps msgs : List String) :
    ((waitDependencies deps msgs).isSome ↔ ∀ d ∈ deps, d ∈ msgs)
    ∧ (deps = [] → waitDependencies deps msgs = some 0)
    ∧ (∀ n, waitDependencies deps msgs = some n →
        (∀ d ∈ deps, d ∈ msgs.take n)
        ∧ ∀ k, k < n → ¬ (∀ d ∈ deps, d ∈ msgs.take k))
    ∧ (∀ msgs', List.Perm msgs msgs' →
        ((waitDependencies deps msgs).isSome ↔
          (waitDependencies deps msgs').isSome)) := by
  have hiff : ∀ ms : List String,
      (waitDependencies deps ms).isSome ↔ ∀ d ∈ deps, d ∈ ms := by
    intro ms
    by_cases hdep : deps.length = 0
    · have hnil : deps = [] := List.length_eq_zero.mp hdep
      subst hnil
      simp [waitDependencies]
    · obtain ⟨d0, hd0⟩ :=
        List.exists_mem_of_ne_nil deps (fun e => hdep (by simp [e]))
      have hrecv : ¬ ∀ d ∈ deps, d ∈ ([] : List String) :=
        fun hall => List.not_mem_nil d0 (hall d0 hd0)
      rw [show waitDependencies deps ms = waitDependenciesAux deps [] ms from
        by simp [waitDependencies, hdep]]
      simpa using waitAux_isSome_iff deps ms [] hrecv
  refine ⟨hiff msgs, ?_, ?_, ?_⟩
  · intro h
    simp [waitDependencies, h]
  · intro n hn
    by_cases hdep : deps.length = 0
    · have hnil : deps = [] := List.length_eq_zero.mp hdep
      subst hnil
      refine ⟨by simp, ?_⟩
      simp [waitDependencies] at hn
      omega
    · obtain ⟨d0, hd0⟩ :=
        List.exists_mem_of_ne_nil deps (fun e => hdep (by simp [e]))
      have hrecv : ¬ ∀ d ∈ deps, d ∈ ([] : List String) :=
        fun hall => List.not_mem_nil d0 (hall d0 hd0)
      rw [show waitDependencies deps msgs = waitDependenciesAux deps [] msgs
          from by simp [waitDependencies, hdep]] at hn
      obtain ⟨_, h2, h3⟩ := (waitAux_eq_some_iff deps msgs [] n hrecv).mp hn
      exact ⟨fun d hd => by simpa using h2 d hd,
        fun k hk hall => h3 k hk (by simpa using hall)⟩
  · intro msgs' hp
    rw [hiff msgs, hiff msgs']
    exact ⟨fun hall d hd => hp.mem_iff.mp (hall d hd),
      fun hall d hd => hp.mem_iff.mpr (hall d hd)⟩

/-- Witness for C1 at a concrete run (the spec's scenario A plus a junk
message): dependency set `{svc_a}`, messages `x` then `svc_a` — the
barrier returns after the second message, which covers the set, and not
after the first. -/
theorem wait_dependencies_correct_witness :
    (∀ d ∈ ["svc_a"], d ∈ ["x", "svc_a"].take 2)
    ∧ ¬ (∀ d ∈ ["svc_a"], d ∈ ["x", "svc_a"].take 1) :=
  ⟨((wait_dependencies_correct ["svc_a"] ["x", "svc_a"]).2.2.1 2
      (by decide)).1,
   ((wait_dependencies_correct ["svc_a"] ["x", "svc_a"]).2.2.1 2
      (by decide)).2 1 (by omega)⟩

end ISAS
